import Mathlib

/-!
Verification development for the `pf2e-kineticist-auras` module.

The module mirrors PF2e "kinetic aura" activation records into cosmetic
marker records. The repository contains two variants of the reconciler:

* the Item variant (`src/scripts/module.js`): hooks `createItem` /
  `deleteItem`, records live in `actor.items`;
* the ActiveEffect variant (`src/unnamed/part_000`, `src/unnamed/part_001`):
  hooks `createActiveEffect` / `deleteActiveEffect`, aura state lives in
  `actor.effects` (the README in `part_000` says the cosmetic markers are
  Active Effects under this host model).

Both variants share the gate detector `getActorGates` and the marker
builder `makeElementAuraEffect` verbatim. We embed:

* the element patterns of `GATE_MAP` as an exact matcher for the JS regexes
  `/(^|\b)<elem>\s*gate(\b|$)|gate[:\s]*<elem>/i` (plus the `ice` / `plant`
  synonym alternatives for Water / Wood), over the ASCII range the module's
  texts use (`\s`, `\w` and `/i` are modelled for ASCII characters);
* actors as a pair of record collections (`items`, `effects`);
* `createEmbeddedDocuments("Item", ds)` as appending the built records with
  host-assigned fresh ids, and `deleteEmbeddedDocuments("Item", ids)` as
  removing the records whose id is listed;
* each hook as a function from the hook's record and the (post-mutation)
  actor to the updated actor; the `game.user.isGM` authority guard is the
  boolean argument, and the `!actor` null-parent early return is modelled
  by passing the parent explicitly.

Cosmetic payload fields of the built effect data (`img`, `system.tokenIcon`,
`system.duration`, `system.rules`) are carried by the host but never read
back by any of the module's logic, so the record type keeps only the fields
the reconciler reads: `id`, `type`, `name`, `system.description.value`,
`flags[MODULE_ID].generatedByKineticAura`, `flags[MODULE_ID].element`.
-/

namespace KineticistAuras

/-! ## Elements (the six keys of `GATE_MAP`) -/

inductive Element where
  | Air
  | Earth
  | Fire
  | Metal
  | Water
  | Wood
deriving DecidableEq, Repr, Fintype

/-- The `Object.entries(GATE_MAP)` iteration order: JS object key insertion order. -/
def gateList : List Element :=
  [Element.Air, Element.Earth, Element.Fire, Element.Metal, Element.Water, Element.Wood]

/-- The element word appearing in the regexes (lower case, as under the `/i` flag). -/
def elemWord : Element → String
  | Element.Air => "air"
  | Element.Earth => "earth"
  | Element.Fire => "fire"
  | Element.Metal => "metal"
  | Element.Water => "water"
  | Element.Wood => "wood"

/-- Synonym words: the extra `(^|\b)ice\s*gate(\b|$)` and `(^|\b)plant\s*gate(\b|$)`
alternatives of the Water and Wood regexes. -/
def elemSyns : Element → List String
  | Element.Water => ["ice"]
  | Element.Wood => ["plant"]
  | _ => []

/-- The canonical capitalised key of `GATE_MAP`, used in marker names. -/
def elemName : Element → String
  | Element.Air => "Air"
  | Element.Earth => "Earth"
  | Element.Fire => "Fire"
  | Element.Metal => "Metal"
  | Element.Water => "Water"
  | Element.Wood => "Wood"

/-! ## Character classes and the `GATE_MAP` regexes

JS `RegExp.test` searches for a match starting at any position. The
patterns in `GATE_MAP` are small enough to model directly:

  alternative 1: `(^|\b)<word>\s*gate(\b|$)`
  alternative 2: `gate[:\s]*<word>`

`\w` is `[A-Za-z0-9_]`; `\s` is modelled over the ASCII whitespace
characters; `/i` is modelled by lower-casing the subject (the patterns are
already lower case). Greedy `\s*` / `[:\s]*` followed by a literal whose
first character is outside the class needs no backtracking, so maximal
munch is exact here. -/

def isWordChar (c : Char) : Bool :=
  c.isAlpha || c.isDigit || c == '_'

def isJsSpace (c : Char) : Bool :=
  c == ' ' || c == '\t' || c == '\n' || c == '\r' || c == '\x0b' || c == '\x0c'

/-- The subject string lower-cased, as a character list. -/
def lowerChars (s : String) : List Char :=
  s.data.map Char.toLower

/-- Consume an exact literal; `none` when the input does not start with it. -/
def dropLit : List Char → List Char → Option (List Char)
  | [], l => some l
  | _ :: _, [] => none
  | p :: ps, c :: cs => if p = c then dropLit ps cs else none

/-- Matching `(\b|$)` after the literal `gate` (which ends in a word character):
either end of input or a non-word character follows. -/
def gateTailOk : List Char → Bool
  | [] => true
  | c :: _ => !isWordChar c

/-- Alternative 1 matched at the current position: `<word>\s*gate(\b|$)`. -/
def alt1Here (w : List Char) (l : List Char) : Bool :=
  match dropLit w l with
  | none => false
  | some rest =>
    match dropLit "gate".data (rest.dropWhile isJsSpace) with
    | none => false
    | some rest2 => gateTailOk rest2

/-- Matching `(^|\b)` before a word character: start of input, or previous character
is a non-word character. -/
def startOk : Option Char → Bool
  | none => true
  | some c => !isWordChar c

/-- Search for alternative 1 at every position, tracking the previous
character for the `(^|\b)` group. -/
def alt1Scan (w : List Char) : Option Char → List Char → Bool
  | _, [] => false
  | prev, c :: cs => (startOk prev && alt1Here w (c :: cs)) || alt1Scan w (some c) cs

/-- Alternative 2 matched at the current position: `gate[:\s]*<word>`. -/
def alt2Here (w : List Char) (l : List Char) : Bool :=
  match dropLit "gate".data l with
  | none => false
  | some rest =>
    (dropLit w (rest.dropWhile (fun c => c == ':' || isJsSpace c))).isSome

/-- Search for alternative 2 at every position. -/
def alt2Scan (w : List Char) : List Char → Bool
  | [] => false
  | c :: cs => alt2Here w (c :: cs) || alt2Scan w cs

/-- Evaluation of `GATE_MAP[e].test(s)`: the whole regex for element `e` against text `s`. -/
def gateRegexTest (e : Element) (s : String) : Bool :=
  let l := lowerChars s
  alt1Scan (elemWord e).data none l ||
    alt2Scan (elemWord e).data l ||
    (elemSyns e).any (fun w => alt1Scan w.data none l)

/-- The word-boundary alternatives alone (alternative 1 for the element word
and its synonyms), without the unanchored `gate[:\s]*<elem>` alternative. -/
def wordBoundaryGateHit (e : Element) (s : String) : Bool :=
  let l := lowerChars s
  alt1Scan (elemWord e).data none l ||
    (elemSyns e).any (fun w => alt1Scan w.data none l)

/-- JS `String.prototype.includes` on character lists. -/
def hasSubstr (n : List Char) : List Char → Bool
  | [] => n.isEmpty
  | c :: cs => (dropLit n (c :: cs)).isSome || hasSubstr n cs

/-! ## Records and actors -/

/-- One embedded record of an actor, keeping the fields the module reads.
`name` and `desc` are `Option` to model missing / nullish fields (the
source defaults them with `?? ""`). `genByKineticAura` is
`flags["pf2e-kineticist-auras"].generatedByKineticAura === true`. -/
structure Rec where
  id : Nat
  rtype : String
  name : Option String
  desc : Option String
  genByKineticAura : Bool
  element : Option Element
deriving DecidableEq, Repr

/-- An actor: its `type` and its two embedded collections. -/
structure Actor where
  atype : String
  items : List Rec
  effects : List Rec
deriving DecidableEq, Repr

/-- The test `(x.name ?? "").toLowerCase().includes("kinetic aura")` — the
aura-activation name filter used by all four hooks. -/
def nameMatches (r : Rec) : Bool :=
  hasSubstr "kinetic aura".data (lowerChars (r.name.getD ""))

/-! ## Gate detection (`getActorGates`, identical in all three files) -/

/-- One capability record tested against one element's regex:
the `["feat", "classfeature"].includes(item.type)` kind filter, then
`rx.test(itemName) || rx.test(desc)` with the `?? ""` defaults. -/
def gateMatchesRecord (e : Element) (r : Rec) : Bool :=
  (r.rtype == "feat" || r.rtype == "classfeature") &&
    (gateRegexTest e (r.name.getD "") || gateRegexTest e (r.desc.getD ""))

/-- JS `found.add(elementName)`: JS `Set` keeps first-insertion order and
collapses duplicates. -/
def addFound (found : List Element) (e : Element) : List Element :=
  if e ∈ found then found else found ++ [e]

/-- The inner loop over `Object.entries(GATE_MAP)` for one record. -/
def scanRecord (found : List Element) (r : Rec) : List Element :=
  gateList.foldl (fun acc e => if gateMatchesRecord e r then addFound acc e else acc) found

/-- Embedding of `getActorGates(actor)`: scan `actor.items`, return `Array.from(found)`. -/
def getActorGates (A : Actor) : List Element :=
  A.items.foldl scanRecord []

/-! ## Marker construction and store operations -/

/-- The marker name `` `Kinetic Aura: ${elementType}` ``. -/
def auraNameOf (e : Element) : String :=
  "Kinetic Aura: " ++ elemName e

/-- Embedding of `makeElementAuraEffect(elementType)` with the id the host store assigns
on creation. The built data carries `type: "effect"`, the name, and the
module flags `generatedByKineticAura: true` and `element`. -/
def makeElementAuraEffect (e : Element) (newId : Nat) : Rec :=
  { id := newId
    rtype := "effect"
    name := some (auraNameOf e)
    desc := none
    genByKineticAura := true
    element := some e }

/-- A fresh id not used in the collection (host stores assign unique ids). -/
def freshId (l : List Rec) : Nat :=
  l.foldl (fun m r => Nat.max m r.id) 0 + 1

/-- Embedding of `elements.map(el => makeElementAuraEffect(el))`, with consecutive fresh
ids assigned at creation in array order. -/
def markersFor : List Element → Nat → List Rec
  | [], _ => []
  | e :: es, b => makeElementAuraEffect e b :: markersFor es (b + 1)

/-- Embedding of `deleteEmbeddedDocuments("Item", ids)`: drop the records whose id is
listed. -/
def deleteByIds (l : List Rec) (ids : List Nat) : List Rec :=
  l.filter (fun r => decide (r.id ∉ ids))

/-! ## The Item variant (`src/scripts/module.js`) -/

namespace ItemV

/-- The ownership test of `module.js`:
`i.type === "effect" && i.flags?.[MODULE_ID]?.generatedByKineticAura === true`. -/
def ownedTag (r : Rec) : Bool :=
  r.rtype == "effect" && r.genByKineticAura

/-- Embedding of `cleanupModuleAuras(actor)` of `module.js`: collect the ids of the
owned effect items (`ours`) and delete them; no-op when there are none. -/
def cleanupModuleAuras (A : Actor) : Actor :=
  if (A.items.filter ownedTag).isEmpty then A
  else { A with items := deleteByIds A.items ((A.items.filter ownedTag).map Rec.id) }

/-- The test `stillHasRealAura` of the `deleteItem` hook: an effect item whose name
matches, except those carrying the module flag. -/
def stillHasRealAura (A : Actor) : Bool :=
  A.items.any (fun i => i.rtype == "effect" && nameMatches i && !i.genByKineticAura)

/-- The `createItem` hook of `module.js`. `isGM` is `game.user.isGM`; the
hook fires after the created item is already in `A.items`. Note the
`alreadyHasOurAuras` guard: when any module-created marker is present the
hook returns before re-deriving gates. -/
def createItemHook (isGM : Bool) (item : Rec) (A : Actor) : Actor :=
  if !isGM then A
  else if A.atype != "character" then A
  else if item.rtype != "effect" then A
  else if !nameMatches item then A
  else if A.items.any (fun i => i.rtype == "effect" && i.genByKineticAura) then A
  else if (getActorGates A).isEmpty then A
  else { A with items := A.items ++ markersFor (getActorGates A) (freshId A.items) }

/-- The `deleteItem` hook of `module.js`; fires after the deleted item has
left `A.items`. -/
def deleteItemHook (isGM : Bool) (item : Rec) (A : Actor) : Actor :=
  if !isGM then A
  else if A.atype != "character" then A
  else if item.rtype != "effect" then A
  else if !nameMatches item then A
  else if stillHasRealAura A then A
  else cleanupModuleAuras A

end ItemV

/-! ## The ActiveEffect variant (`src/unnamed/part_000`, `src/unnamed/part_001`)

Under this host model embedded aura state lives in `actor.effects`: the
README bundled with `part_000` states the module "adds cosmetic Active
Effects to the actor", and the variant's own `cleanupModuleAuras` and
`stillHasKineticAura` scan `actor.effects`, so the records this variant
creates and removes are modelled in that collection. -/

namespace EffectV

/-- Embedding of `cleanupModuleAuras(actor)` of the ActiveEffect variant: every record
of `actor.effects` carrying the module flag (`ours`; no type filter here). -/
def cleanupModuleAuras (A : Actor) : Actor :=
  if (A.effects.filter (fun r => r.genByKineticAura)).isEmpty then A
  else
    { A with
      effects := deleteByIds A.effects
        ((A.effects.filter (fun r => r.genByKineticAura)).map Rec.id) }

/-- The test `stillHasKineticAura` of the `deleteActiveEffect` hook: any record of
`actor.effects` whose name contains "kinetic aura" — with no exclusion of
the module's own flagged markers. -/
def stillHasKineticAura (A : Actor) : Bool :=
  A.effects.any (fun e => hasSubstr "kinetic aura".data (lowerChars (e.name.getD "")))

/-- The resynchronization body of the `createActiveEffect` hook (spec §4.3
`activate`): derive gates, return silently when empty, otherwise clean up
the previously generated markers and create one fresh marker per gate. -/
def activate (A : Actor) : Actor :=
  if (getActorGates A).isEmpty then A
  else
    { cleanupModuleAuras A with
      effects := (cleanupModuleAuras A).effects ++
        markersFor (getActorGates A) (freshId (cleanupModuleAuras A).effects) }

/-- The `createActiveEffect` hook of `part_001` (same logic in `part_000`):
authority, actor-category and name guards, then unconditional
resynchronization. -/
def createAEHook (isGM : Bool) (eff : Rec) (A : Actor) : Actor :=
  if !isGM then A
  else if A.atype != "character" then A
  else if !nameMatches eff then A
  else activate A

/-- The `deleteActiveEffect` hook of `part_001` / `part_000`. -/
def deleteAEHook (isGM : Bool) (eff : Rec) (A : Actor) : Actor :=
  if !isGM then A
  else if A.atype != "character" then A
  else if !nameMatches eff then A
  else if stillHasKineticAura A then A
  else cleanupModuleAuras A

end EffectV

/-! ## Observations used by the claims -/

/-- The module-owned records of a collection. -/
def ownedOf (l : List Rec) : List Rec :=
  l.filter (fun r => r.genByKineticAura)

/-- The elements tagged on the module-owned records of a collection. -/
def markerElems (l : List Rec) : List Element :=
  (ownedOf l).filterMap Rec.element

/-- A record with its nullish text fields replaced by empty strings, as the
source's `?? ""` defaults read them. -/
def defaultedRec (r : Rec) : Rec :=
  { r with name := some (r.name.getD ""), desc := some (r.desc.getD "") }

/-- The synonym sub-pattern of the Water / Wood regexes on its own:
`(^|\b)<w>\s*gate(\b|$)` (case-insensitive), i.e. the word `w` followed by
optional whitespace and `gate`, delimited by word boundaries or string
edges. -/
def synGateHit (w : String) (s : String) : Bool :=
  alt1Scan w.data none (lowerChars s)

/-! ## Concrete fixtures used by the claim theorems -/

/-- A capability giving the Fire gate. -/
def c1Capability : Rec := ⟨1, "feat", some "Fire Gate", none, false, none⟩

/-- A stale module-created marker for Metal. -/
def c1Marker : Rec := ⟨2, "effect", some "Kinetic Aura: Metal", none, true, some Element.Metal⟩

/-- The PF2e activation record whose creation fires the hook. -/
def c1Trigger : Rec := ⟨3, "effect", some "Effect: Kinetic Aura", none, false, none⟩

/-- Item-variant actor: Fire capability, stale Metal marker, fresh
activation record — the `alreadyHasOurAuras` guard fires here. -/
def c1Actor : Actor := ⟨"character", [c1Capability, c1Marker, c1Trigger], []⟩

/-- The activation record for the ActiveEffect-variant witness. -/
def c1wTrigger : Rec := ⟨4, "effect", some "Effect: Kinetic Aura", none, false, none⟩

/-- ActiveEffect-variant actor with a stale Metal marker and a Fire
capability: the hook resynchronizes to exactly the Fire marker. -/
def c1wActor : Actor :=
  ⟨"character", [⟨1, "feat", some "Fire Gate", none, false, none⟩],
    [⟨2, "effect", some "Kinetic Aura: Metal", none, true, some Element.Metal⟩, c1wTrigger]⟩

/-- A module-owned cosmetic marker (ownership tag set). -/
def c2Marker : Rec := ⟨1, "effect", some "Kinetic Aura: Fire", none, true, some Element.Fire⟩

/-- The genuine activation record whose removal fires the delete hook. -/
def c2Removed : Rec := ⟨2, "effect", some "Effect: Kinetic Aura", none, false, none⟩

/-- Post-removal actor state: the only remaining record is the module's own
ownership-tagged marker (ActiveEffect variant). -/
def c2Actor : Actor := ⟨"character", [], [c2Marker]⟩

/-- The same post-removal state under the Item variant (`module.js`). -/
def c2ActorI : Actor := ⟨"character", [c2Marker], []⟩

/-- The last genuine activation record, just removed. -/
def c4Removed : Rec := ⟨3, "effect", some "Effect: Kinetic Aura", none, false, none⟩

/-- Post-removal actor (ActiveEffect variant): N = 1 activation records,
the one and only genuine record was just removed; one cosmetic marker. -/
def c4Actor : Actor :=
  ⟨"character", [⟨1, "feat", some "Fire Gate", none, false, none⟩],
    [⟨2, "effect", some "Kinetic Aura: Fire", none, true, some Element.Fire⟩]⟩

/-- Item-variant actor after removing one of N = 2 genuine records: one
genuine record and the marker remain. -/
def c4ItemsA : Actor :=
  ⟨"character",
    [⟨1, "feat", some "Fire Gate", none, false, none⟩,
     ⟨2, "effect", some "Effect: Kinetic Aura", none, false, none⟩,
     ⟨3, "effect", some "Kinetic Aura: Fire", none, true, some Element.Fire⟩], []⟩

/-- Item-variant actor after removing the last genuine record: only the
capability and the marker remain. -/
def c4ItemsB : Actor :=
  ⟨"character",
    [⟨1, "feat", some "Fire Gate", none, false, none⟩,
     ⟨3, "effect", some "Kinetic Aura: Fire", none, true, some Element.Fire⟩], []⟩

/-- An actor whose capability records match exactly "Fire Gate" and
"Metal Gate". -/
def c5wActor : Actor :=
  ⟨"character",
    [⟨1, "feat", some "Fire Gate", none, false, none⟩,
     ⟨2, "feat", some "Metal Gate", none, false, none⟩], []⟩

/-- An activation record on an actor with zero matching capabilities. -/
def c6wRec : Rec := ⟨1, "effect", some "Effect: Kinetic Aura", none, false, none⟩

/-- Actor with an activation record but no gate-granting capability. -/
def c6wActor : Actor :=
  ⟨"character", [⟨2, "feat", some "Shield Block", none, false, none⟩], [c6wRec]⟩

/-- Actor with a malformed capability record (missing name and description)
and a matching text on a record of an unrecognised kind. -/
def c7wActor : Actor :=
  ⟨"character",
    [⟨1, "feat", none, none, false, none⟩,
     ⟨2, "weapon", some "Fire Gate", none, false, none⟩], []⟩

/-- Actor whose capability texts contain "Ice Gate" and "Plant Gate" as
substrings ("Ice Gates", "Plant Gates") yet match no pattern. -/
def c8Actor : Actor :=
  ⟨"character",
    [⟨1, "feat", some "Ice Gates", none, false, none⟩,
     ⟨2, "feat", some "Plant Gates", none, false, none⟩], []⟩

/-- A capability named "Ice Gate". -/
def c8wIce : Rec := ⟨1, "feat", some "Ice Gate", none, false, none⟩

/-- A capability whose description mentions the Plant Gate. -/
def c8wPlant : Rec := ⟨2, "classfeature", none, some "You open the Plant Gate.", false, none⟩

/-- Actor carrying the two synonym capabilities. -/
def c8wActor : Actor := ⟨"character", [c8wIce, c8wPlant], []⟩

/-- An unflagged record whose name exactly matches the marker pattern. -/
def c9Plain : Rec := ⟨1, "effect", some "Kinetic Aura: Fire", none, false, none⟩

/-- A module-owned marker next to it. -/
def c9Tagged : Rec := ⟨2, "effect", some "Kinetic Aura: Fire", none, true, some Element.Fire⟩

/-- Actor holding both records in both collections. -/
def c9wActor : Actor := ⟨"character", [c9Plain, c9Tagged], [c9Plain, c9Tagged]⟩

/-- Actor whose only capability text is "Aggregate: fire": no standalone
"gate" word adjacent to an element name. -/
def c10Actor : Actor :=
  ⟨"character", [⟨1, "feat", some "Aggregate: fire", none, false, none⟩], []⟩

/-! ## Lemmas: gate detection -/

theorem mem_gateList (e : Element) : e ∈ gateList := by
  cases e <;> simp [gateList]

theorem addFound_mem (found : List Element) (e x : Element) :
    x ∈ addFound found e ↔ x ∈ found ∨ x = e := by
  unfold addFound
  split
  · rename_i he
    constructor
    · exact Or.inl
    · rintro (hx | rfl)
      · exact hx
      · exact he
  · simp

theorem addFound_nodup (found : List Element) (e : Element) (h : found.Nodup) :
    (addFound found e).Nodup := by
  unfold addFound
  split
  · exact h
  · rename_i he
    simp [List.nodup_append, h, he]

theorem scanFold_mem (r : Rec) (x : Element) (l : List Element) :
    ∀ f : List Element,
      (x ∈ l.foldl (fun acc e => if gateMatchesRecord e r then addFound acc e else acc) f) ↔
        x ∈ f ∨ (x ∈ l ∧ gateMatchesRecord x r = true) := by
  induction l with
  | nil => intro f; simp
  | cons e es ih =>
    intro f
    rw [List.foldl_cons, ih]
    by_cases hm : gateMatchesRecord e r = true
    · rw [if_pos hm, addFound_mem]
      by_cases hx : x = e
      · subst hx; simp [hm]
      · simp [hx]
    · rw [if_neg hm]
      by_cases hx : x = e
      · subst hx; simp [hm]
      · simp [hx]

theorem scanRecord_mem (found : List Element) (r : Rec) (x : Element) :
    x ∈ scanRecord found r ↔ x ∈ found ∨ gateMatchesRecord x r = true := by
  unfold scanRecord
  rw [scanFold_mem]
  simp [mem_gateList]

theorem scanRecord_nodup (found : List Element) (r : Rec) (h : found.Nodup) :
    (scanRecord found r).Nodup := by
  unfold scanRecord
  generalize gateList = l
  induction l generalizing found with
  | nil => exact h
  | cons e es ih =>
    rw [List.foldl_cons]
    apply ih
    split
    · exact addFound_nodup found e h
    · exact h

theorem getActorGates_mem (A : Actor) (x : Element) :
    x ∈ getActorGates A ↔ ∃ r ∈ A.items, gateMatchesRecord x r = true := by
  unfold getActorGates
  have key : ∀ (rs : List Rec) (f : List Element),
      x ∈ rs.foldl scanRecord f ↔ x ∈ f ∨ ∃ r ∈ rs, gateMatchesRecord x r = true := by
    intro rs
    induction rs with
    | nil => intro f; simp
    | cons r rs ih =>
      intro f
      rw [List.foldl_cons, ih, scanRecord_mem]
      simp only [List.mem_cons]
      constructor
      · rintro ((hf | hm) | ⟨r', hr', hm'⟩)
        · exact Or.inl hf
        · exact Or.inr ⟨r, Or.inl rfl, hm⟩
        · exact Or.inr ⟨r', Or.inr hr', hm'⟩
      · rintro (hf | ⟨r', (rfl | hr'), hm'⟩)
        · exact Or.inl (Or.inl hf)
        · exact Or.inl (Or.inr hm')
        · exact Or.inr ⟨r', hr', hm'⟩
  rw [key]
  simp

theorem getActorGates_nodup (A : Actor) : (getActorGates A).Nodup := by
  unfold getActorGates
  have key : ∀ (rs : List Rec) (f : List Element), f.Nodup → (rs.foldl scanRecord f).Nodup := by
    intro rs
    induction rs with
    | nil => intro f h; exact h
    | cons r rs ih =>
      intro f h
      rw [List.foldl_cons]
      exact ih _ (scanRecord_nodup f r h)
  exact key A.items [] List.nodup_nil

/-- Gate detection reads only `actor.items`. -/
theorem getActorGates_congr (A B : Actor) (h : A.items = B.items) :
    getActorGates A = getActorGates B := by
  unfold getActorGates
  rw [h]

/-! ## Lemmas: markers and cleanup -/

theorem ownedOf_append (l1 l2 : List Rec) :
    ownedOf (l1 ++ l2) = ownedOf l1 ++ ownedOf l2 := by
  simp [ownedOf]

theorem markerElems_append (l1 l2 : List Rec) :
    markerElems (l1 ++ l2) = markerElems l1 ++ markerElems l2 := by
  simp [markerElems, ownedOf]

theorem ownedOf_markersFor (g : List Element) (b : Nat) :
    ownedOf (markersFor g b) = markersFor g b := by
  induction g generalizing b with
  | nil => rfl
  | cons e es ih =>
    have h := ih (b + 1)
    simp only [ownedOf] at h ⊢
    simp [markersFor, makeElementAuraEffect, List.filter_cons, h]

theorem markerElems_markersFor (g : List Element) (b : Nat) :
    markerElems (markersFor g b) = g := by
  unfold markerElems
  rw [ownedOf_markersFor]
  induction g generalizing b with
  | nil => rfl
  | cons e es ih =>
    simp [markersFor, makeElementAuraEffect, List.filterMap_cons, ih (b + 1)]

theorem markersFor_map_name (g : List Element) (b : Nat) :
    (markersFor g b).map Rec.name = g.map (fun e => some (auraNameOf e)) := by
  induction g generalizing b with
  | nil => rfl
  | cons e es ih =>
    simp only [markersFor, List.map_cons, makeElementAuraEffect]
    rw [ih (b + 1)]

theorem markersFor_map_element (g : List Element) (b : Nat) :
    (markersFor g b).map Rec.element = g.map some := by
  induction g generalizing b with
  | nil => rfl
  | cons e es ih =>
    simp only [markersFor, List.map_cons, makeElementAuraEffect]
    rw [ih (b + 1)]

/-- After the ActiveEffect variant's cleanup no module-owned record remains
in `actor.effects`: every owned record's id is in the deletion list. -/
theorem ownedOf_cleanupE (A : Actor) :
    ownedOf (EffectV.cleanupModuleAuras A).effects = [] := by
  unfold EffectV.cleanupModuleAuras
  split
  · rename_i h
    rw [List.isEmpty_iff] at h
    simpa [ownedOf] using h
  · rw [List.eq_nil_iff_forall_not_mem]
    intro r hr
    simp only [ownedOf, deleteByIds, List.mem_filter, decide_eq_true_eq] at hr
    obtain ⟨⟨hmem, hid⟩, hgen⟩ := hr
    exact hid (List.mem_map_of_mem Rec.id (List.mem_filter.mpr ⟨hmem, hgen⟩))

theorem markerElems_cleanupE (A : Actor) :
    markerElems (EffectV.cleanupModuleAuras A).effects = [] := by
  unfold markerElems
  rw [ownedOf_cleanupE]
  rfl

theorem cleanupE_items (A : Actor) : (EffectV.cleanupModuleAuras A).items = A.items := by
  unfold EffectV.cleanupModuleAuras
  split <;> rfl

/-- After the Item variant's cleanup no record matching its ownership test
(`type === "effect"` and the module flag) remains in `actor.items`. -/
theorem cleanupI_no_owned (A : Actor) :
    ∀ i ∈ (ItemV.cleanupModuleAuras A).items, ItemV.ownedTag i = false := by
  unfold ItemV.cleanupModuleAuras
  split
  · rename_i h
    rw [List.isEmpty_iff, List.eq_nil_iff_forall_not_mem] at h
    intro i hi
    by_contra hcon
    exact h i (List.mem_filter.mpr ⟨hi, by simpa using hcon⟩)
  · intro i hi
    simp only [deleteByIds, List.mem_filter, decide_eq_true_eq] at hi
    obtain ⟨hmem, hid⟩ := hi
    by_contra hcon
    rw [Bool.not_eq_false] at hcon
    exact hid (List.mem_map_of_mem Rec.id (List.mem_filter.mpr ⟨hmem, hcon⟩))

/-! ## Lemmas: activate -/

theorem activate_items (A : Actor) : (EffectV.activate A).items = A.items := by
  unfold EffectV.activate
  split
  · rfl
  · exact cleanupE_items A

theorem getActorGates_activate (A : Actor) :
    getActorGates (EffectV.activate A) = getActorGates A :=
  getActorGates_congr _ _ (activate_items A)

theorem activate_of_empty (A : Actor) (h : getActorGates A = []) :
    EffectV.activate A = A := by
  unfold EffectV.activate
  rw [if_pos (by simp [h])]

theorem ownedOf_activate (A : Actor) (h : getActorGates A ≠ []) :
    ownedOf (EffectV.activate A).effects =
      markersFor (getActorGates A) (freshId (EffectV.cleanupModuleAuras A).effects) := by
  unfold EffectV.activate
  rw [if_neg (by simpa [List.isEmpty_iff] using h)]
  show ownedOf ((EffectV.cleanupModuleAuras A).effects ++ markersFor _ _) = _
  rw [ownedOf_append, ownedOf_cleanupE, ownedOf_markersFor, List.nil_append]

theorem markerElems_activate (A : Actor) (h : getActorGates A ≠ []) :
    markerElems (EffectV.activate A).effects = getActorGates A := by
  unfold markerElems
  rw [ownedOf_activate A h]
  have := markerElems_markersFor (getActorGates A)
    (freshId (EffectV.cleanupModuleAuras A).effects)
  simpa [markerElems, ownedOf_markersFor] using this

/-! ## Claim theorems -/

/-- Claim C1, counterexample: on the Item variant (`module.js`) a matching
activation-record creation event on a supported actor under the authority
does NOT trigger resynchronization when a module-created marker is already
present: the hook returns the actor unchanged, leaving the stale Metal
marker although re-deriving gates from the current capability records
yields Fire. -/
theorem claim_c1_counterexample :
    ItemV.createItemHook true c1Trigger c1Actor = c1Actor ∧
    getActorGates c1Actor = [Element.Fire] ∧
    markerElems c1Actor.items = [Element.Metal] := by decide

/-- Claim C1 (amended): the ActiveEffect-variant reaction resynchronizes
unconditionally — for every matching creation event with a non-empty gate
set, the marker set afterwards equals the gate set re-derived from the
current capability records, regardless of any markers already present —
while the Item-variant reaction (`module.js`) returns early whenever
module-created markers are already present, leaving the actor unchanged. -/
theorem claim_c1_resync (eff item : Rec) (A B : Actor)
    (hA : A.atype = "character") (hn : nameMatches eff = true)
    (hg : getActorGates A ≠ [])
    (hB : (B.items.any fun i => i.rtype == "effect" && i.genByKineticAura) = true) :
    markerElems (EffectV.createAEHook true eff A).effects = getActorGates A ∧
      ItemV.createItemHook true item B = B := by
  constructor
  · unfold EffectV.createAEHook
    rw [if_neg (by simp), if_neg (by simp [hA]), if_neg (by simp [hn])]
    exact markerElems_activate A hg
  · unfold ItemV.createItemHook
    repeat' split
    all_goals rfl

/-- Claim C1, witness: a concrete ActiveEffect-variant actor with a stale
Metal marker is resynchronized to the freshly derived gate set, and the
concrete Item-variant actor with an existing marker is left unchanged. -/
theorem claim_c1_witness :
    markerElems (EffectV.createAEHook true c1wTrigger c1wActor).effects =
        getActorGates c1wActor ∧
      ItemV.createItemHook true c1Trigger c1Actor = c1Actor :=
  claim_c1_resync c1wTrigger c1Trigger c1wActor c1Actor (by decide) (by decide)
    (by decide) (by decide)

/-- Claim C2 (code bug): on the ActiveEffect variant the remaining-activation
test does NOT exclude records carrying the ownership tag: in a state where
the only remaining record is the module's own tagged marker the test still
reports an activation, and the delete hook keeps the marker instead of
tearing it down. On the Item variant (`module.js`), whose comment documents
the intended exclusion, the same state is treated as "no activation
remains" and the marker is removed. -/
theorem claim_c2_bug :
    (c2Actor.effects.all fun r => r.genByKineticAura) = true ∧
    EffectV.stillHasKineticAura c2Actor = true ∧
    EffectV.deleteAEHook true c2Removed c2Actor = c2Actor ∧
    ItemV.stillHasRealAura c2ActorI = false ∧
    (ItemV.deleteItemHook true c2Removed c2ActorI).items = [] := by decide

/-- Claim C3: calling `activate` twice in succession with no intervening
capability change yields a cosmetic-marker set equal to the one produced by
a single call — the marker element lists are equal, so no duplicate markers
accumulate. -/
theorem claim_c3_activate_idempotent (A : Actor) :
    markerElems (EffectV.activate (EffectV.activate A)).effects =
      markerElems (EffectV.activate A).effects := by
  by_cases h : getActorGates A = []
  · simp [activate_of_empty A h]
  · have hg : getActorGates (EffectV.activate A) = getActorGates A :=
      getActorGates_activate A
    rw [markerElems_activate (EffectV.activate A) (by rw [hg]; exact h), hg,
      markerElems_activate A h]

/-- Claim C4 (code bug): on the ActiveEffect variant, removing the last
(N = 1) genuine activation record does NOT trigger `deactivate`: the
cosmetic marker keeps the remaining-activation test true, so the hook
returns the actor unchanged and the module-owned marker survives. On the
Item variant (`module.js`) the aggregate is re-queried correctly: with one
genuine record left the hook is a no-op, and after the last genuine record
is gone it deletes the module-owned marker. -/
theorem claim_c4_bug :
    EffectV.deleteAEHook true c4Removed c4Actor = c4Actor ∧
    ((EffectV.deleteAEHook true c4Removed c4Actor).effects.any
      fun r => r.genByKineticAura) = true ∧
    ItemV.deleteItemHook true c4Removed c4ItemsA = c4ItemsA ∧
    (ItemV.deleteItemHook true c4Removed c4ItemsB).items =
      [⟨1, "feat", some "Fire Gate", none, false, none⟩] := by decide

/-- Claim C5: for an actor whose capability records match Fire and Metal
and no other element, `detectGates` returns exactly the set {Fire, Metal},
and `activate` produces exactly two module-owned markers, named
"Kinetic Aura: Fire" and "Kinetic Aura: Metal", each carrying its element
tag (and, being in `ownedOf`, the ownership tag). -/
theorem claim_c5_gate_completeness (A : Actor)
    (h1 : ∃ r ∈ A.items, gateMatchesRecord Element.Fire r = true)
    (h2 : ∃ r ∈ A.items, gateMatchesRecord Element.Metal r = true)
    (h3 : ∀ r ∈ A.items, ∀ e : Element, gateMatchesRecord e r = true →
      e = Element.Fire ∨ e = Element.Metal) :
    (getActorGates A).Perm [Element.Fire, Element.Metal] ∧
    ((ownedOf (EffectV.activate A).effects).map Rec.name).Perm
      [some "Kinetic Aura: Fire", some "Kinetic Aura: Metal"] ∧
    ((ownedOf (EffectV.activate A).effects).map Rec.element).Perm
      [some Element.Fire, some Element.Metal] := by
  have hmem : ∀ x : Element, x ∈ getActorGates A ↔
      x = Element.Fire ∨ x = Element.Metal := by
    intro x
    rw [getActorGates_mem]
    constructor
    · rintro ⟨r, hr, hm⟩
      exact h3 r hr x hm
    · rintro (rfl | rfl)
      · exact h1
      · exact h2
  have hperm : (getActorGates A).Perm [Element.Fire, Element.Metal] := by
    rw [List.perm_ext_iff_of_nodup (getActorGates_nodup A) (by decide)]
    intro x
    rw [hmem]
    simp
  have hne : getActorGates A ≠ [] := by
    intro hnil
    have hf := (hmem Element.Fire).mpr (Or.inl rfl)
    rw [hnil] at hf
    exact List.not_mem_nil _ hf
  refine ⟨hperm, ?_, ?_⟩
  · rw [ownedOf_activate A hne, markersFor_map_name]
    have hlit : [Element.Fire, Element.Metal].map (fun e => some (auraNameOf e)) =
        [some "Kinetic Aura: Fire", some "Kinetic Aura: Metal"] := by decide
    rw [← hlit]
    exact hperm.map _
  · rw [ownedOf_activate A hne, markersFor_map_element]
    exact hperm.map some

/-- Claim C5, witness: the two-capability actor yields exactly the Fire and
Metal markers. -/
theorem claim_c5_witness :
    ((ownedOf (EffectV.activate c5wActor).effects).map Rec.name).Perm
      [some "Kinetic Aura: Fire", some "Kinetic Aura: Metal"] :=
  (claim_c5_gate_completeness c5wActor (by decide) (by decide) (by decide)).2.1

/-- Claim C6: whenever `detectGates` returns the empty set, `activate` does
nothing and both creation reactions return the actor unchanged — no marker
is created and no error is raised (the functions are total). -/
theorem claim_c6_empty_gates (g : Bool) (r : Rec) (A : Actor)
    (h : getActorGates A = []) :
    EffectV.activate A = A ∧ EffectV.createAEHook g r A = A ∧
      ItemV.createItemHook g r A = A := by
  have hA := activate_of_empty A h
  refine ⟨hA, ?_, ?_⟩
  · unfold EffectV.createAEHook
    repeat' split
    all_goals first | rfl | exact hA
  · unfold ItemV.createItemHook
    repeat' split
    all_goals try rfl
    all_goals
      exfalso
      rename_i hc
      exact hc (by simp [h])

/-- Claim C6, witness: an actor holding an activation record but no
gate-granting capability is left untouched by the creation reaction. -/
theorem claim_c6_witness :
    EffectV.activate c6wActor = c6wActor ∧
      EffectV.createAEHook true c6wRec c6wActor = c6wActor ∧
      ItemV.createItemHook true c6wRec c6wActor = c6wActor :=
  claim_c6_empty_gates true c6wRec c6wActor (by decide)

/-- Claim C7: `detectGates` is total (a Lean function, it cannot throw):
when no capability record matches any element pattern it returns the empty
set, and records with missing (`none`) name or description fields are
treated exactly as records carrying empty strings. -/
theorem claim_c7_detect_total (A : Actor) :
    ((∀ r ∈ A.items, ∀ e : Element, gateMatchesRecord e r = false) →
      getActorGates A = []) ∧
    getActorGates { A with items := A.items.map defaultedRec } = getActorGates A := by
  constructor
  · intro h
    rw [List.eq_nil_iff_forall_not_mem]
    intro e he
    rw [getActorGates_mem] at he
    obtain ⟨r, hr, hm⟩ := he
    rw [h r hr e] at hm
    exact Bool.false_ne_true hm
  · have hrec : ∀ (e : Element) (r : Rec),
        gateMatchesRecord e (defaultedRec r) = gateMatchesRecord e r := by
      intro e r
      simp [defaultedRec, gateMatchesRecord]
    have hscan : ∀ (f : List Element) (r : Rec),
        scanRecord f (defaultedRec r) = scanRecord f r := by
      intro f r
      simp only [scanRecord, hrec]
    have key : ∀ (rs : List Rec) (f : List Element),
        (rs.map defaultedRec).foldl scanRecord f = rs.foldl scanRecord f := by
      intro rs
      induction rs with
      | nil => intro f; rfl
      | cons r rs ih =>
        intro f
        rw [List.map_cons, List.foldl_cons, List.foldl_cons, hscan, ih]
    exact key A.items []

/-- Claim C7, witness: an actor with a malformed capability record (missing
text fields) and a matching text on an unrecognised record kind yields the
empty gate set without failing. -/
theorem claim_c7_witness : getActorGates c7wActor = [] :=
  (claim_c7_detect_total c7wActor).1 (by decide)

/-- Claim C8, counterexample: the capability names "Ice Gates" and
"Plant Gates" contain the texts "Ice Gate" and "Plant Gate" (as
case-insensitive substrings), yet `detectGates` returns the empty set —
the `(\b|$)` boundary after `gate` rejects the trailing `s`. -/
theorem claim_c8_counterexample :
    hasSubstr (lowerChars "Ice Gate") (lowerChars "Ice Gates") = true ∧
    hasSubstr (lowerChars "Plant Gate") (lowerChars "Plant Gates") = true ∧
    getActorGates c8Actor = [] := by decide

/-- Claim C8 (amended): a capability record whose name or description
contains "ice" followed by optional whitespace and "gate" delimited by word
boundaries or string edges (case-insensitively) contributes Water to
`detectGates`; the same with "plant" contributes Wood. -/
theorem claim_c8_synonyms (A : Actor) (r : Rec) (hr : r ∈ A.items)
    (hk : r.rtype = "feat" ∨ r.rtype = "classfeature") :
    ((synGateHit "ice" (r.name.getD "") = true ∨
        synGateHit "ice" (r.desc.getD "") = true) →
      Element.Water ∈ getActorGates A) ∧
    ((synGateHit "plant" (r.name.getD "") = true ∨
        synGateHit "plant" (r.desc.getD "") = true) →
      Element.Wood ∈ getActorGates A) := by
  have hkd : (r.rtype == "feat" || r.rtype == "classfeature") = true := by
    rcases hk with h | h <;> simp [h]
  constructor
  · intro hh
    rw [getActorGates_mem]
    refine ⟨r, hr, ?_⟩
    unfold gateMatchesRecord
    rw [hkd, Bool.true_and]
    simp only [synGateHit] at hh
    rcases hh with h | h <;> simp [gateRegexTest, elemSyns, h]
  · intro hh
    rw [getActorGates_mem]
    refine ⟨r, hr, ?_⟩
    unfold gateMatchesRecord
    rw [hkd, Bool.true_and]
    simp only [synGateHit] at hh
    rcases hh with h | h <;> simp [gateRegexTest, elemSyns, h]

/-- Claim C8, witness: "Ice Gate" in a name yields Water; "Plant Gate" in a
description yields Wood. -/
theorem claim_c8_witness :
    Element.Water ∈ getActorGates c8wActor ∧
      Element.Wood ∈ getActorGates c8wActor :=
  ⟨(claim_c8_synonyms c8wActor c8wIce (by decide) (by decide)).1
      (Or.inl (by decide)),
    (claim_c8_synonyms c8wActor c8wPlant (by decide) (by decide)).2
      (Or.inr (by decide))⟩

/-- Claim C9: under the store invariant that embedded ids are unique per
collection, `deactivate` (`cleanupModuleAuras`, both variants) keeps every
record lacking the ownership tag — even one whose name matches the marker
pattern exactly — and removes no record from outside the collection:
every surviving record was already present. -/
theorem claim_c9_ownership_separation (A : Actor)
    (hni : (A.items.map Rec.id).Nodup) (hne : (A.effects.map Rec.id).Nodup) :
    (∀ r ∈ A.items, r.genByKineticAura = false →
      r ∈ (ItemV.cleanupModuleAuras A).items) ∧
    (∀ r ∈ (ItemV.cleanupModuleAuras A).items, r ∈ A.items) ∧
    (∀ r ∈ A.effects, r.genByKineticAura = false →
      r ∈ (EffectV.cleanupModuleAuras A).effects) ∧
    (∀ r ∈ (EffectV.cleanupModuleAuras A).effects, r ∈ A.effects) := by
  refine ⟨?_, ?_, ?_, ?_⟩
  · intro r hr hflag
    unfold ItemV.cleanupModuleAuras
    split
    · exact hr
    · simp only [deleteByIds, List.mem_filter, decide_eq_true_eq]
      refine ⟨hr, ?_⟩
      intro hid
      rw [List.mem_map] at hid
      obtain ⟨r', hr', hid'⟩ := hid
      rw [List.mem_filter] at hr'
      obtain ⟨hmem', htag⟩ := hr'
      have heq : r' = r := List.inj_on_of_nodup_map hni hmem' hr hid'
      subst heq
      simp [ItemV.ownedTag, hflag] at htag
  · intro r hr
    unfold ItemV.cleanupModuleAuras at hr
    split at hr
    · exact hr
    · simp only [deleteByIds, List.mem_filter] at hr
      exact hr.1
  · intro r hr hflag
    unfold EffectV.cleanupModuleAuras
    split
    · exact hr
    · simp only [deleteByIds, List.mem_filter, decide_eq_true_eq]
      refine ⟨hr, ?_⟩
      intro hid
      rw [List.mem_map] at hid
      obtain ⟨r', hr', hid'⟩ := hid
      rw [List.mem_filter] at hr'
      obtain ⟨hmem', htag⟩ := hr'
      have heq : r' = r := List.inj_on_of_nodup_map hne hmem' hr hid'
      subst heq
      rw [hflag] at htag
      exact Bool.false_ne_true htag
  · intro r hr
    unfold EffectV.cleanupModuleAuras at hr
    split at hr
    · exact hr
    · simp only [deleteByIds, List.mem_filter] at hr
      exact hr.1

/-- Claim C9, witness: the unflagged record named exactly
"Kinetic Aura: Fire" survives both cleanups while a tagged marker sits next
to it. -/
theorem claim_c9_witness :
    c9Plain ∈ (ItemV.cleanupModuleAuras c9wActor).items ∧
      c9Plain ∈ (EffectV.cleanupModuleAuras c9wActor).effects :=
  ⟨(claim_c9_ownership_separation c9wActor (by decide) (by decide)).1 c9Plain
      (by decide) (by decide),
    (claim_c9_ownership_separation c9wActor (by decide) (by decide)).2.2.1 c9Plain
      (by decide) (by decide)⟩

/-- Claim C10: the capability text "Aggregate: fire" contains no
word-boundary-delimited element-plus-gate phrase (every `(^|\b)…` sub-pattern
fails on it, for all six elements and both synonyms), yet `detectGates`
returns {Fire}: the `gate[:\s]*fire` alternative matches inside the word
"Aggregate". -/
theorem claim_c10_unanchored :
    (gateList.all fun e => !wordBoundaryGateHit e "Aggregate: fire") = true ∧
    getActorGates c10Actor = [Element.Fire] := by decide

end KineticistAuras
